import Mathlib

/-!
# Verification of the deep-research orchestrator and its text segmenter

Shallow embedding of `src/deep_research.py`, `src/ai/text_splitter.py` and
`src/ai/providers.py` (the `trim_prompt` function).  Python strings are
modelled as `List Char` (`PyStr`); the external services (completion,
search, token counting) are modelled as oracle functions supplied through
an environment, since the repository treats them as opaque collaborators.
-/

/-- A Python string, modelled as its list of characters. -/
abbrev PyStr := List Char

/-- Python `str.strip()` whitespace set (space, tab, newline, carriage
return, vertical tab, form feed). -/
def isPySpace (c : Char) : Bool :=
  c = ' ' || c = '\t' || c = '\n' || c = '\r' || c = '\x0b' || c = '\x0c'

/-- Python `s.strip()`: drop whitespace from both ends. -/
def pyStrip (s : PyStr) : PyStr :=
  ((s.dropWhile isPySpace).reverse.dropWhile isPySpace).reverse

/-- Python `separator.join(docs)`. -/
def pyJoin (sep : PyStr) : List PyStr → PyStr
  | [] => []
  | [x] => x
  | x :: y :: t => x ++ sep ++ pyJoin sep (y :: t)

/-- Python truthiness of an optional string field: `item.get(k)` is truthy
iff the key is present and the string non-empty. -/
def pyTruthy (o : Option PyStr) : Bool :=
  o.getD [] ≠ []

/-! ## Text segmenter (`src/ai/text_splitter.py`) -/

/-- `TextSplitter.__init__`: stores the sizes, raising `ValueError` when
`chunk_overlap >= chunk_size`.  Python ints are modelled as `Int`. -/
def textSplitterInit (chunk_size chunk_overlap : Int) : Except Unit (Int × Int) :=
  if chunk_overlap ≥ chunk_size then .error () else .ok (chunk_size, chunk_overlap)

/-- `TextSplitter._join_docs`: join with the separator, strip, and return
`None` when the stripped text is empty. -/
def joinDocs (docs : List PyStr) (separator : PyStr) : Option PyStr :=
  let text := pyStrip (pyJoin separator docs)
  if text = [] then none else some text

/-- The `while` loop inside `TextSplitter.merge_splits`: keep popping the
front of `current_doc` (adjusting `total`) while
`total > chunk_overlap or (total + _len > chunk_size and total > 0)`,
breaking out when `current_doc` is exhausted. -/
def popLoop (chunk_overlap chunk_size lenD : Nat) : List PyStr → Nat → List PyStr × Nat
  | [], total => ([], total)
  | x :: xs, total =>
    if total > chunk_overlap ∨ (total + lenD > chunk_size ∧ total > 0) then
      popLoop chunk_overlap chunk_size lenD xs (total - x.length)
    else (x :: xs, total)

/-- The `for d in splits` loop of `TextSplitter.merge_splits`, carrying the
pending group `current_doc` and its running character total `total` (which,
as in the source, does not count separator characters).  The trailing
`_join_docs` flush is the base case. -/
def mergeGo (chunk_size chunk_overlap : Nat) (separator : PyStr) :
    List PyStr → List PyStr → Nat → List PyStr
  | [], current_doc, _ =>
    match joinDocs current_doc separator with
    | some doc => [doc]
    | none => []
  | d :: rest, current_doc, total =>
    if total + d.length ≥ chunk_size then
      if current_doc ≠ [] then
        let flushed :=
          match joinDocs current_doc separator with
          | some doc => [doc]
          | none => []
        let popped := popLoop chunk_overlap chunk_size d.length current_doc total
        flushed ++ mergeGo chunk_size chunk_overlap separator rest
          (popped.1 ++ [d]) (popped.2 + d.length)
      else
        mergeGo chunk_size chunk_overlap separator rest (current_doc ++ [d]) (total + d.length)
    else
      mergeGo chunk_size chunk_overlap separator rest (current_doc ++ [d]) (total + d.length)

/-- `TextSplitter.merge_splits`. -/
def mergeSplits (chunk_size chunk_overlap : Nat) (splits : List PyStr) (separator : PyStr) :
    List PyStr :=
  mergeGo chunk_size chunk_overlap separator splits [] 0

/-- The default separator list of `RecursiveCharacterTextSplitter`. -/
def defaultSeparators : List PyStr :=
  [['\n', '\n'], ['\n'], ['.'], [','], ['>'], ['<'], [' '], []]

/-- The separator-selection loop of `split_text`: take the first separator
that is the empty string or occurs in the text, defaulting to the last
entry of the list. -/
def chooseSep (separators : List PyStr) (text : PyStr) : PyStr :=
  match separators.find? (fun s => s = [] || decide (s <:+: text)) with
  | some s => s
  | none => separators.getLastD []

/-- Python `text.split(sep)` for a non-empty `sep`, by scanning left to
right; `fuel` bounds the scan (callers pass `text.length + 1`, which always
suffices since every step consumes at least one character). -/
def pySplitGo (sep : PyStr) : Nat → PyStr → PyStr → List PyStr
  | 0, acc, rest => [acc.reverse ++ rest]
  | _ + 1, acc, [] => [acc.reverse]
  | fuel + 1, acc, c :: cs =>
    if sep.isPrefixOf (c :: cs) then
      acc.reverse :: pySplitGo sep fuel [] (List.drop sep.length (c :: cs))
    else
      pySplitGo sep fuel (c :: acc) cs

/-- Python `text.split(sep)` (non-empty `sep`). -/
def pySplit (sep text : PyStr) : List PyStr :=
  pySplitGo sep (text.length + 1) [] text

/-- The `for s in splits` loop of `RecursiveCharacterTextSplitter.split_text`:
pieces shorter than `chunk_size` accumulate into `good_splits`; an oversized
piece first flushes the accumulated group through `merge_splits` and is then
handed to the recursive splitter `recur` (`none` propagates exhausted fuel). -/
def splitLoop (chunk_size chunk_overlap : Nat) (separator : PyStr)
    (recur : PyStr → Option (List PyStr)) :
    List PyStr → List PyStr → Option (List PyStr)
  | [], good_splits =>
    some (if good_splits = [] then [] else mergeSplits chunk_size chunk_overlap good_splits separator)
  | s :: rest, good_splits =>
    if s.length < chunk_size then
      splitLoop chunk_size chunk_overlap separator recur rest (good_splits ++ [s])
    else
      match recur s, splitLoop chunk_size chunk_overlap separator recur rest [] with
      | some other_info, some tail_chunks =>
        some ((if good_splits = [] then []
               else mergeSplits chunk_size chunk_overlap good_splits separator)
              ++ other_info ++ tail_chunks)
      | _, _ => none

/-- One invocation of `RecursiveCharacterTextSplitter.split_text`, with the
recursive self-call abstracted as `recur`. -/
def splitTextStep (chunk_size chunk_overlap : Nat) (separators : List PyStr)
    (recur : PyStr → Option (List PyStr)) (text : PyStr) : Option (List PyStr) :=
  let separator := chooseSep separators text
  let splits := if separator ≠ [] then pySplit separator text else text.map (fun c => [c])
  splitLoop chunk_size chunk_overlap separator recur splits []

/-- `RecursiveCharacterTextSplitter.split_text`.  The source recursion is
general (and diverges for `chunk_size ≤ 1`), so the embedding is fuelled:
`none` means the fuel ran out before the recursion bottomed out. -/
def splitText (chunk_size chunk_overlap : Nat) (separators : List PyStr) :
    Nat → PyStr → Option (List PyStr)
  | 0, _ => none
  | fuel + 1, text =>
    splitTextStep chunk_size chunk_overlap separators
      (splitText chunk_size chunk_overlap separators fuel) text

example : pySplit [' '] ("aaa bbb ccc ddd".data) =
    ["aaa".data, "bbb".data, "ccc".data, "ddd".data] := by decide

example : mergeSplits 10 0 ["aaa".data, "bbb".data, "ccc".data, "ddd".data] [' '] =
    ["aaa bbb ccc".data, "ddd".data] := by decide

example : splitText 10 0 defaultSeparators 5 ("aaa bbb ccc ddd".data) =
    some ["aaa bbb ccc".data, "ddd".data] := by decide

example : splitText 10 2 [[' '], []] 5 ("the quick brown fox".data) =
    some ["the quick".data, "brown fox".data] := by decide

/-! ## Size-bounded trimmer (`trim_prompt` in `src/ai/providers.py`) -/

/-- `MIN_CHUNK_SIZE` in `src/ai/providers.py`. -/
def MIN_CHUNK_SIZE : Nat := 140

/-- `trim_prompt(prompt, context_size)` with the tiktoken encoder modelled
as an abstract deterministic token counter `tok` (the length of
`encoder.encode(prompt)`).  The source recursion shrinks the prompt each
round; the embedding is fuelled, `none` meaning the fuel ran out.  The
`chunk_size` estimate, negative in Python when the overflow is large, is
truncated at 0 by `Nat` subtraction — both land in the
`chunk_size < MIN_CHUNK_SIZE` branch. -/
def trimPrompt (tok : PyStr → Nat) : Nat → PyStr → Nat → Option PyStr
  | 0, _, _ => none
  | fuel + 1, prompt, context_size =>
    if prompt = [] then some []
    else if tok prompt ≤ context_size then some prompt
    else
      let chunk_size := prompt.length - (tok prompt - context_size) * 3
      if chunk_size < MIN_CHUNK_SIZE then some (prompt.take MIN_CHUNK_SIZE)
      else
        match splitText chunk_size 0 defaultSeparators fuel prompt with
        | none => none
        | some chunks =>
          if (chunks.headD []).length = prompt.length then
            trimPrompt tok fuel (prompt.take chunk_size) context_size
          else
            trimPrompt tok fuel (chunks.headD []) context_size

/-- The outer `try`/`except` of `trim_prompt`: when the encoder is
unavailable (`enc = none`, a global condition independent of the input),
every call falls back to the character-estimate truncation
`prompt[:context_size * 3]`; the `if not prompt` check precedes the `try`. -/
def trimPromptFull (enc : Option (PyStr → Nat)) (fuel : Nat) (prompt : PyStr)
    (context_size : Nat) : Option PyStr :=
  if prompt = [] then some []
  else
    match enc with
    | none => some (prompt.take (context_size * 3))
    | some tok => trimPrompt tok fuel prompt context_size

example : trimPrompt (fun s => s.length) 3 ("aaa bbb ccc ddd".data) 20 =
    some ("aaa bbb ccc ddd".data) := by decide

example : trimPrompt (fun s => s.length) 3 ("aaa bbb ccc ddd".data) 13 =
    some (("aaa bbb ccc ddd".data).take 140) := by decide

/-! ## Research orchestrator (`src/deep_research.py`)

The two external services are oracles in an `Env`:
`plannerResp` models the completion call inside `generate_serp_queries`
(the parsed `queries` list, or an exception), `searchResp` models
`tavily.search` (the parsed `results` items, or an exception),
`extractResp` models the completion call inside `process_serp_result`
(the parsed `learnings`/`follow_up_questions` lists, or an exception), and
`trimF` models `trim_prompt(_, 25000)` applied to each document. -/

/-- The `SerpQuery` dataclass. -/
structure SerpQuery where
  query : PyStr
  research_goal : PyStr
deriving DecidableEq, Repr

/-- The `ResearchResult` dataclass. -/
structure ResearchResult where
  learnings : List PyStr
  visited_urls : List PyStr
deriving DecidableEq, Repr

/-- One item of a search response (a Python dict): optional `url`,
`content` and `markdown` string fields, `none` meaning the key is absent. -/
structure SearchItem where
  url : Option PyStr
  content : Option PyStr
  markdown : Option PyStr
deriving DecidableEq, Repr

/-- Oracle responses of the external services, per call site. -/
structure Env where
  plannerResp : PyStr → Nat → List PyStr → Except Unit (List SerpQuery)
  searchResp : PyStr → Except Unit (List SearchItem)
  extractResp : PyStr → List PyStr → Nat → Nat → Except Unit (List PyStr × List PyStr)
  trimF : PyStr → PyStr

/-- `generate_serp_queries`: on any exception from the completion call the
function returns `[]`; otherwise the parsed queries are truncated to
`num_queries` (`queries[:num_queries]`). -/
def generateSerpQueries (resp : Except Unit (List SerpQuery)) (num_queries : Nat) :
    List SerpQuery :=
  match resp with
  | .error _ => []
  | .ok queries => queries.take num_queries

/-- The url-collection loop in `process_query`: every item with a truthy
`url` contributes that url to `new_urls`, regardless of its content. -/
def collectUrls (items : List SearchItem) : List PyStr :=
  items.filterMap fun item => if pyTruthy item.url then some (item.url.getD []) else none

/-- The scraped-contents loop in `process_query`: for every item with a
truthy `url`, a dict `{url, markdown: content}` is built where
`content = item.get("content") or item.get("markdown", "")`. -/
def scrapedContents (items : List SearchItem) : List SearchItem :=
  items.filterMap fun item =>
    if pyTruthy item.url then
      some { url := item.url
             content := none
             markdown := some (if pyTruthy item.content then item.content.getD []
                               else item.markdown.getD []) }
    else none

/-- The contents-extraction loop of `process_serp_result`: items whose
`markdown` is present and truthy contribute `trim_prompt(markdown, 25000)`;
otherwise items whose `content` is present and truthy contribute
`trim_prompt(content, 25000)`. -/
def extractContents (trimF : PyStr → PyStr) (items : List SearchItem) : List PyStr :=
  items.filterMap fun item =>
    if pyTruthy item.markdown then some (trimF (item.markdown.getD []))
    else if pyTruthy item.content then some (trimF (item.content.getD []))
    else none

/-- `process_serp_result`: empty contents short-circuit to empty results
without calling the completion service; a completion failure is caught and
also yields empty results; a successful response is returned as parsed —
the `num_learnings`/`num_follow_up_questions` bounds only appear in the
prompt and schema text, they are never enforced on the parsed lists. -/
def processSerpResult (env : Env) (query : PyStr) (items : List SearchItem)
    (num_learnings num_follow_up_questions : Nat) : List PyStr × List PyStr :=
  let contents := extractContents env.trimF items
  if contents = [] then ([], [])
  else
    match env.extractResp query contents num_learnings num_follow_up_questions with
    | .error _ => ([], [])
    | .ok r => r

/-- `new_breadth = max(1, breadth // 2)` in `process_query`. -/
def childBreadth (breadth : Nat) : Nat := max 1 (breadth / 2)

/-- The continuation query assembled in `process_query` from the branch's
research goal and the extracted follow-up questions (the f-string, then
`.strip()`). -/
def nextQueryStr (research_goal : PyStr) (follow_up_questions : List PyStr) : PyStr :=
  pyStrip (('\n' :: "Previous research goal: ".data) ++ research_goal ++
    ('\n' :: "Follow-up research directions: ".data) ++
    pyJoin ['\n'] follow_up_questions ++ ('\n' :: "                    ".data))

/-- One branch body (`process_query`): the whole body runs under
`try`/`except`, so a search failure makes the branch return the empty
`ResearchResult([], [])` — not its accumulated state.  An extraction
failure, by contrast, is absorbed inside `process_serp_result`.  The
recursive `deep_research` call is abstracted as `child` (invoked only when
`new_depth = depth - 1 > 0`). -/
def processQuery (env : Env)
    (child : PyStr → Nat → List PyStr → List PyStr → ResearchResult)
    (breadth depth : Nat) (learnings visited_urls : List PyStr)
    (serp_query : SerpQuery) : ResearchResult :=
  match env.searchResp serp_query.query with
  | .error _ => ⟨[], []⟩
  | .ok items =>
    let new_urls := collectUrls items
    let new_breadth := childBreadth breadth
    let processed := processSerpResult env serp_query.query (scrapedContents items) 3 new_breadth
    let all_learnings := learnings ++ processed.1
    let all_urls := visited_urls ++ new_urls
    if depth - 1 > 0 then
      child (nextQueryStr serp_query.research_goal processed.2) new_breadth
        all_learnings all_urls
    else ⟨all_learnings, all_urls⟩

/-- The body of one `deep_research` call, with the recursive call
abstracted as `child`: plan, early-return on an empty plan, run every
branch, and merge seed and branch results by set union (Python
`list(set(...))`, determinised here as `List.dedup` — membership equal,
order immaterial). -/
def deepResearchStep (env : Env)
    (child : PyStr → Nat → List PyStr → List PyStr → ResearchResult)
    (query : PyStr) (breadth depth : Nat)
    (learnings visited_urls : List PyStr) : ResearchResult :=
  let serp_queries := generateSerpQueries (env.plannerResp query breadth learnings) breadth
  if serp_queries = [] then ⟨learnings, visited_urls⟩
  else
    let results := serp_queries.map (processQuery env child breadth depth learnings visited_urls)
    ⟨(learnings ++ (results.map ResearchResult.learnings).flatten).dedup,
     (visited_urls ++ (results.map ResearchResult.visited_urls).flatten).dedup⟩

/-- `deep_research`, by recursion on `depth`; the recursion stops at
`new_depth = depth - 1 ≤ 0`, so the child continuation at depth 0 is never
invoked (`processQuery`'s guard is false) and a dummy is passed. -/
def deepResearchGo (env : Env) : Nat → PyStr → Nat → List PyStr → List PyStr → ResearchResult
  | 0, query, breadth, learnings, visited_urls =>
    deepResearchStep env (fun _ _ l u => ⟨l, u⟩) query breadth 0 learnings visited_urls
  | d + 1, query, breadth, learnings, visited_urls =>
    deepResearchStep env (deepResearchGo env d) query breadth (d + 1) learnings visited_urls

/-- `deep_research(query, breadth, depth, learnings, visited_urls)` (the
progress callback has no effect on the returned result and is omitted). -/
def deepResearch (env : Env) (query : PyStr) (breadth depth : Nat)
    (learnings visited_urls : List PyStr) : ResearchResult :=
  deepResearchGo env depth query breadth learnings visited_urls

/-- The continuation `deep_research` actually uses at a given depth. -/
def deepResearchChild (env : Env) : Nat → PyStr → Nat → List PyStr → List PyStr → ResearchResult
  | 0 => fun _ _ l u => ⟨l, u⟩
  | d + 1 => deepResearchGo env d

/-- The stub environment of the spec's worked example: one planned query,
one search hit containing the answer, one extracted learning. -/
def envStub : Env where
  plannerResp := fun _ _ _ => .ok [⟨"capital of France".data, "identify capital".data⟩]
  searchResp := fun _ =>
    .ok [⟨some ("stub://url".data), some ("Paris is the capital of France".data), none⟩]
  extractResp := fun _ _ _ _ => .ok ([("Paris is the capital of France".data)], [])
  trimF := id

example : deepResearch envStub ("What is the capital of France?".data) 2 1 [] [] =
    ⟨[("Paris is the capital of France".data)], [("stub://url".data)]⟩ := by decide

/-! ## Claims -/

/-- An environment whose completion service always fails for planning. -/
def envPlanFail : Env where
  plannerResp := fun _ _ _ => .error ()
  searchResp := fun _ => .ok []
  extractResp := fun _ _ _ _ => .ok ([], [])
  trimF := id

/-- An environment whose extraction completion returns four learnings even
though at most three were requested. -/
def envFourLearnings : Env where
  plannerResp := fun _ _ _ => .ok []
  searchResp := fun _ => .ok []
  extractResp := fun _ _ _ _ => .ok ([['a'], ['b'], ['c'], ['d']], [])
  trimF := id

/-- Set union of the learnings of a list of branch results. -/
def learningsUnion (rs : List ResearchResult) : Finset PyStr :=
  rs.foldr (fun r acc => r.learnings.toFinset ∪ acc) ∅

/-- Set union of the visited urls of a list of branch results. -/
def urlsUnion (rs : List ResearchResult) : Finset PyStr :=
  rs.foldr (fun r acc => r.visited_urls.toFinset ∪ acc) ∅

/-- Two-branch environment where branch `q1` succeeds and branch `q2`
fails during the extraction completion call (its search succeeds and
discovers `u2`). -/
def envExtractFail : Env where
  plannerResp := fun _ _ _ => .ok [⟨"q1".data, ['g']⟩, ⟨"q2".data, ['g']⟩]
  searchResp := fun q =>
    if q = "q1".data then .ok [⟨some ("u1".data), some ['c'], none⟩]
    else .ok [⟨some ("u2".data), some ['c'], none⟩]
  extractResp := fun q _ _ _ =>
    if q = "q1".data then .ok ([['l']], []) else .error ()
  trimF := id

/-- Two-branch environment where branch `q2`'s search call raises. -/
def envSearchFail : Env where
  plannerResp := fun _ _ _ => .ok [⟨"q1".data, ['g']⟩, ⟨"q2".data, ['g']⟩]
  searchResp := fun q =>
    if q = "q1".data then .ok [⟨some ("u1".data), some ['c'], none⟩] else .error ()
  extractResp := fun _ _ _ _ => .ok ([['l']], [])
  trimF := id

/-- Environment whose single search hit has a url but empty content. -/
def envEmptyContent : Env where
  plannerResp := fun _ _ _ => .ok [⟨"q1".data, ['g']⟩]
  searchResp := fun _ => .ok [⟨some ("u1".data), some [], none⟩]
  extractResp := fun _ _ _ _ => .ok ([['l']], [])
  trimF := id

/-- Call-tree depth instrumentation of one branch (`process_query`),
mirroring its control flow: a branch contributes its recursive subtree's
depth when `new_depth = depth - 1 > 0`, and nothing when it terminates or
its search raises. -/
def pqLevels (env : Env) (child : PyStr → Nat → List PyStr → List PyStr → Nat)
    (breadth depth : Nat) (learnings visited_urls : List PyStr) (sq : SerpQuery) : Nat :=
  match env.searchResp sq.query with
  | .error _ => 0
  | .ok items =>
    let new_urls := collectUrls items
    let new_breadth := childBreadth breadth
    let processed := processSerpResult env sq.query (scrapedContents items) 3 new_breadth
    if depth - 1 > 0 then
      child (nextQueryStr sq.research_goal processed.2) new_breadth
        (learnings ++ processed.1) (visited_urls ++ new_urls)
    else 0

/-- Call-tree depth of one `deep_research` call: 1 for the call itself
plus the deepest branch subtree. -/
def drLevelsStep (env : Env) (child : PyStr → Nat → List PyStr → List PyStr → Nat)
    (query : PyStr) (breadth depth : Nat) (learnings visited_urls : List PyStr) : Nat :=
  let serp_queries := generateSerpQueries (env.plannerResp query breadth learnings) breadth
  if serp_queries = [] then 1
  else 1 + (serp_queries.map
    (pqLevels env child breadth depth learnings visited_urls)).foldr max 0

/-- Call-tree depth of `deep_research`, by recursion on `depth` exactly as
in `deepResearchGo`. -/
def drLevelsGo (env : Env) : Nat → PyStr → Nat → List PyStr → List PyStr → Nat
  | 0, query, breadth, learnings, visited_urls =>
    drLevelsStep env (fun _ _ _ _ => 0) query breadth 0 learnings visited_urls
  | d + 1, query, breadth, learnings, visited_urls =>
    drLevelsStep env (drLevelsGo env d) query breadth (d + 1) learnings visited_urls

/-- Call-tree depth of `deep_research(query, breadth, depth, ...)`. -/
def drLevels (env : Env) (query : PyStr) (breadth depth : Nat)
    (learnings visited_urls : List PyStr) : Nat :=
  drLevelsGo env depth query breadth learnings visited_urls

/-- One-query planner, empty-but-successful search: satisfies the claim's
assumption that every planning call returns a non-empty plan. -/
def envC1 : Env where
  plannerResp := fun _ _ _ => .ok [⟨['q'], ['g']⟩]
  searchResp := fun _ => .ok []
  extractResp := fun _ _ _ _ => .ok ([], [])
  trimF := id

/-! ## Theorems -/

theorem deepResearch_eq_step (env : Env) (query : PyStr) (breadth depth : Nat)
    (learnings visited_urls : List PyStr) :
    deepResearch env query breadth depth learnings visited_urls =
      deepResearchStep env (deepResearchChild env depth) query breadth depth
        learnings visited_urls := by
  cases depth <;> rfl

/-- C8: constructing the segmenter with `chunkOverlap ≥ chunkSize` fails
with a configuration error raised to the caller (the `ValueError` in
`TextSplitter.__init__`), and construction with `chunkOverlap < chunkSize`
raises no error. -/
theorem C8_init_overlap_check (chunk_size chunk_overlap : Int) :
    (chunk_overlap ≥ chunk_size →
      textSplitterInit chunk_size chunk_overlap = .error ()) ∧
    (chunk_overlap < chunk_size →
      textSplitterInit chunk_size chunk_overlap = .ok (chunk_size, chunk_overlap)) := by
  refine ⟨fun h => ?_, fun h => ?_⟩
  · unfold textSplitterInit
    rw [if_pos h]
  · unfold textSplitterInit
    rw [if_neg (not_le.mpr h)]

theorem C8_init_overlap_check_witness :
    textSplitterInit 1000 1000 = .error () ∧ textSplitterInit 1000 200 = .ok (1000, 200) :=
  ⟨(C8_init_overlap_check 1000 1000).1 (by decide),
   (C8_init_overlap_check 1000 200).2 (by decide)⟩

/-- C6: whenever the planner yields no sub-queries (in particular whenever
the completion service fails, since `generate_serp_queries` maps any
exception to `[]`), `deep_research` returns exactly the seed
learnings/urls it was given, unchanged, and does not raise (the model is a
total function). -/
theorem C6_empty_plan_returns_seed (env : Env) (query : PyStr) (breadth depth : Nat)
    (learnings visited_urls : List PyStr)
    (h : generateSerpQueries (env.plannerResp query breadth learnings) breadth = []) :
    deepResearch env query breadth depth learnings visited_urls =
      ⟨learnings, visited_urls⟩ := by
  rw [deepResearch_eq_step]
  unfold deepResearchStep
  simp [h]

theorem C6_empty_plan_returns_seed_witness :
    deepResearch envPlanFail ("topic".data) 4 2 [['s']] [['u']] = ⟨[['s']], [['u']]⟩ :=
  C6_empty_plan_returns_seed envPlanFail ("topic".data) 4 2 [['s']] [['u']] (by decide)

/-- C3 (amended): on the merge path — whenever the planner yields at least
one sub-query — the returned learnings and visited urls carry no exact
duplicates (`list(set(...))`).  The early-return path, by contrast,
returns the seed lists unchanged, so duplicates in the seed survive there
(see the counterexample). -/
theorem C3_merge_path_dedup (env : Env) (query : PyStr) (breadth depth : Nat)
    (learnings visited_urls : List PyStr)
    (h : generateSerpQueries (env.plannerResp query breadth learnings) breadth ≠ []) :
    (deepResearch env query breadth depth learnings visited_urls).learnings.Nodup ∧
    (deepResearch env query breadth depth learnings visited_urls).visited_urls.Nodup := by
  rw [deepResearch_eq_step]
  unfold deepResearchStep
  simp only [h, if_neg, ne_eq, not_false_eq_true, ite_false]
  exact ⟨List.nodup_dedup _, List.nodup_dedup _⟩

theorem C3_merge_path_dedup_witness :
    (deepResearch envStub ("q".data) 2 1 [] []).learnings.Nodup ∧
    (deepResearch envStub ("q".data) 2 1 [] []).visited_urls.Nodup :=
  C3_merge_path_dedup envStub ("q".data) 2 1 [] [] (by decide)

theorem C3_counterexample :
    ¬ (deepResearch envPlanFail ("topic".data) 4 2 [['a'], ['a']] []).learnings.Nodup := by
  decide

theorem C7_counterexample :
    ¬ ((processSerpResult envFourLearnings ['q']
        [⟨some ['u'], none, some ['m']⟩] 3 3).1.length ≤ 3) := by decide

/-- C7 (amended): `process_serp_result` passes the completion service's
parsed learnings and follow-up lists through unmodified — the
`num_learnings`/`num_follow_up_questions` bounds appear only in the prompt
and schema text and are never enforced on the result (unlike
`generate_serp_queries`, which does truncate with `[:num_queries]`). -/
theorem C7_extract_unbounded (env : Env) (query : PyStr) (items : List SearchItem)
    (num_learnings num_follow_up_questions : Nat) (ls fs : List PyStr)
    (hne : extractContents env.trimF items ≠ [])
    (hresp : env.extractResp query (extractContents env.trimF items)
      num_learnings num_follow_up_questions = .ok (ls, fs)) :
    processSerpResult env query items num_learnings num_follow_up_questions = (ls, fs) := by
  unfold processSerpResult
  simp only [hne, if_neg, ne_eq, not_false_eq_true, ite_false, hresp]

theorem C7_extract_unbounded_witness :
    processSerpResult envFourLearnings ['q'] [⟨some ['u'], none, some ['m']⟩] 3 3 =
      ([['a'], ['b'], ['c'], ['d']], []) :=
  C7_extract_unbounded envFourLearnings ['q'] [⟨some ['u'], none, some ['m']⟩] 3 3
    [['a'], ['b'], ['c'], ['d']] [] (by decide) rfl

theorem learningsUnion_append (a b : List ResearchResult) :
    learningsUnion (a ++ b) = learningsUnion a ∪ learningsUnion b := by
  induction a with
  | nil => simp [learningsUnion]
  | cons r t ih =>
    simp only [List.cons_append, learningsUnion, List.foldr_cons] at *
    rw [ih, Finset.union_assoc]

theorem urlsUnion_append (a b : List ResearchResult) :
    urlsUnion (a ++ b) = urlsUnion a ∪ urlsUnion b := by
  induction a with
  | nil => simp [urlsUnion]
  | cons r t ih =>
    simp only [List.cons_append, urlsUnion, List.foldr_cons] at *
    rw [ih, Finset.union_assoc]

theorem learningsUnion_cons (r : ResearchResult) (t : List ResearchResult) :
    learningsUnion (r :: t) = r.learnings.toFinset ∪ learningsUnion t := rfl

theorem urlsUnion_cons (r : ResearchResult) (t : List ResearchResult) :
    urlsUnion (r :: t) = r.visited_urls.toFinset ∪ urlsUnion t := rfl

theorem dedup_toFinset_eq {α : Type} [DecidableEq α] (l : List α) :
    l.dedup.toFinset = l.toFinset := by
  ext x
  simp [List.mem_toFinset, List.mem_dedup]

theorem flatten_learnings_toFinset (rs : List ResearchResult) :
    ((rs.map ResearchResult.learnings).flatten).toFinset = learningsUnion rs := by
  induction rs with
  | nil => simp [learningsUnion]
  | cons r t ih => simp [learningsUnion, ih] at *

theorem flatten_urls_toFinset (rs : List ResearchResult) :
    ((rs.map ResearchResult.visited_urls).flatten).toFinset = urlsUnion rs := by
  induction rs with
  | nil => simp [urlsUnion]
  | cons r t ih => simp [urlsUnion, ih] at *

/-- A branch whose search call raises returns the empty result. -/
theorem processQuery_search_error (env : Env)
    (child : PyStr → Nat → List PyStr → List PyStr → ResearchResult)
    (breadth depth : Nat) (learnings visited_urls : List PyStr) (sq : SerpQuery)
    (h : env.searchResp sq.query = .error ()) :
    processQuery env child breadth depth learnings visited_urls sq = ⟨[], []⟩ := by
  unfold processQuery
  rw [h]

/-- C2 (amended): if one of the sibling branches raises during the search
call, the merged learnings and sources equal the set union of the seed
state with the other branches' results; the failed branch contributes
nothing, and the call does not raise (the model is total).  The original
claim also covered errors raised by the extraction completion call, but
those are caught inside `process_serp_result` (fail-soft empty extraction)
and the branch still contributes its discovered urls — see the
counterexample. -/
theorem C2_failed_search_branch_isolated (env : Env) (query : PyStr)
    (breadth depth : Nat) (learnings visited_urls : List PyStr)
    (pre post : List SerpQuery) (qf : SerpQuery)
    (hplan : generateSerpQueries (env.plannerResp query breadth learnings) breadth
      = pre ++ qf :: post)
    (hfail : env.searchResp qf.query = .error ()) :
    (deepResearch env query breadth depth learnings visited_urls).learnings.toFinset
      = learnings.toFinset ∪ learningsUnion ((pre ++ post).map
          (processQuery env (deepResearchChild env depth) breadth depth
            learnings visited_urls)) ∧
    (deepResearch env query breadth depth learnings visited_urls).visited_urls.toFinset
      = visited_urls.toFinset ∪ urlsUnion ((pre ++ post).map
          (processQuery env (deepResearchChild env depth) breadth depth
            learnings visited_urls)) := by
  rw [deepResearch_eq_step]
  unfold deepResearchStep
  have hne : pre ++ qf :: post ≠ [] := by simp
  rw [hplan]
  simp only [hne, if_neg, ne_eq, not_false_eq_true, ite_false]
  constructor
  · simp only [dedup_toFinset_eq, List.toFinset_append, flatten_learnings_toFinset,
      List.map_append, List.map_cons, learningsUnion_append, learningsUnion_cons,
      processQuery_search_error env _ breadth depth learnings visited_urls qf hfail,
      List.flatten_append, List.flatten_cons, List.nil_append,
      List.toFinset_nil, Finset.empty_union, Finset.union_assoc]
  · simp only [dedup_toFinset_eq, List.toFinset_append, flatten_urls_toFinset,
      List.map_append, List.map_cons, urlsUnion_append, urlsUnion_cons,
      processQuery_search_error env _ breadth depth learnings visited_urls qf hfail,
      List.flatten_append, List.flatten_cons, List.nil_append,
      List.toFinset_nil, Finset.empty_union, Finset.union_assoc]

theorem C2_counterexample :
    ("u2".data) ∈ (deepResearch envExtractFail ['t'] 2 1 [] []).visited_urls ∧
    (processQuery envExtractFail (deepResearchChild envExtractFail 1) 2 1 [] []
        ⟨"q1".data, ['g']⟩).visited_urls = [("u1".data)] := by decide

theorem C2_failed_search_branch_isolated_witness :
    (deepResearch envSearchFail ['t'] 2 1 [['s']] [['v']]).learnings.toFinset
      = [['s']].toFinset ∪ learningsUnion ([⟨"q1".data, ['g']⟩].map
          (processQuery envSearchFail (deepResearchChild envSearchFail 1) 2 1
            [['s']] [['v']])) ∧
    (deepResearch envSearchFail ['t'] 2 1 [['s']] [['v']]).visited_urls.toFinset
      = [['v']].toFinset ∪ urlsUnion ([⟨"q1".data, ['g']⟩].map
          (processQuery envSearchFail (deepResearchChild envSearchFail 1) 2 1
            [['s']] [['v']])) :=
  C2_failed_search_branch_isolated envSearchFail ['t'] 2 1 [['s']] [['v']]
    [⟨"q1".data, ['g']⟩] [] ⟨"q2".data, ['g']⟩ (by decide) rfl

/-- Any item carrying a non-empty url contributes it to `new_urls`. -/
theorem mem_collectUrls (items : List SearchItem) (it : SearchItem) (u : PyStr)
    (hit : it ∈ items) (hu : it.url = some u) (hne : u ≠ []) :
    u ∈ collectUrls items := by
  unfold collectUrls
  refine List.mem_filterMap.mpr ⟨it, hit, ?_⟩
  simp [pyTruthy, hu, hne]

/-- `deep_research` never loses the seed urls it is given: both its
terminal path and its merge path return a superset. -/
theorem seed_urls_mem_deepResearchGo (env : Env) (d : Nat) (query : PyStr)
    (breadth : Nat) (learnings visited_urls : List PyStr) (x : PyStr)
    (hx : x ∈ visited_urls) :
    x ∈ (deepResearchGo env d query breadth learnings visited_urls).visited_urls := by
  have h : ∀ c, x ∈ (deepResearchStep env c query breadth d learnings
      visited_urls).visited_urls := by
    intro c
    unfold deepResearchStep
    dsimp only
    split
    · exact hx
    · exact List.mem_dedup.mpr (List.mem_append_left _ hx)
  cases d
  · exact h _
  · exact h _

/-- A successful branch always reports every discovered url, whether it
terminates at this level or recurses. -/
theorem processQuery_reports_urls (env : Env) (breadth depth : Nat)
    (learnings visited_urls : List PyStr) (sq : SerpQuery)
    (items : List SearchItem) (u : PyStr)
    (hs : env.searchResp sq.query = .ok items)
    (hu : u ∈ collectUrls items) :
    u ∈ (processQuery env (deepResearchChild env depth) breadth depth
      learnings visited_urls sq).visited_urls := by
  unfold processQuery
  rw [hs]
  simp only
  split
  · rename_i hd
    cases depth with
    | zero => omega
    | succ d =>
      exact seed_urls_mem_deepResearchGo env d _ _ _ _ u
        (List.mem_append_right _ hu)
  · exact List.mem_append_right _ hu

/-- C10: every search-result item that carries a non-empty url is counted
among the returned sources of the research call, even when the item's
content is empty or absent (such a document is filtered out before
extraction and contributes no learning, but its url survives). -/
theorem C10_url_counted_without_content (env : Env) (query : PyStr)
    (breadth depth : Nat) (learnings visited_urls : List PyStr)
    (sq : SerpQuery) (items : List SearchItem) (it : SearchItem) (u : PyStr)
    (hsq : sq ∈ generateSerpQueries (env.plannerResp query breadth learnings) breadth)
    (hs : env.searchResp sq.query = .ok items)
    (hit : it ∈ items) (hu : it.url = some u) (hne : u ≠ []) :
    u ∈ (deepResearch env query breadth depth learnings visited_urls).visited_urls := by
  rw [deepResearch_eq_step]
  unfold deepResearchStep
  have hqs : generateSerpQueries (env.plannerResp query breadth learnings) breadth ≠ [] :=
    List.ne_nil_of_mem hsq
  simp only [hqs, if_neg, ne_eq, not_false_eq_true, ite_false]
  refine List.mem_dedup.mpr (List.mem_append_right _ ?_)
  refine List.mem_flatten.mpr ⟨(processQuery env (deepResearchChild env depth) breadth depth
    learnings visited_urls sq).visited_urls, ?_, ?_⟩
  · exact List.mem_map_of_mem _ (List.mem_map_of_mem _ hsq)
  · exact processQuery_reports_urls env breadth depth learnings visited_urls sq items u hs
      (mem_collectUrls items it u hit hu hne)

theorem C10_url_counted_without_content_witness :
    ("u1".data) ∈ (deepResearch envEmptyContent ['t'] 2 1 [] []).visited_urls :=
  C10_url_counted_without_content envEmptyContent ['t'] 2 1 [] [] ⟨"q1".data, ['g']⟩
    [⟨some ("u1".data), some [], none⟩] ⟨some ("u1".data), some [], none⟩ ("u1".data)
    (by decide) rfl (by decide) rfl (by decide)

/-- Stripping never lengthens a string. -/
theorem pyStrip_length_le (s : PyStr) : (pyStrip s).length ≤ s.length := by
  unfold pyStrip
  calc ((s.dropWhile isPySpace).reverse.dropWhile isPySpace).reverse.length
      ≤ (s.dropWhile isPySpace).reverse.length := by
        rw [List.length_reverse]
        exact (List.dropWhile_sublist _).length_le
    _ ≤ s.length := by
        rw [List.length_reverse]
        exact (List.dropWhile_sublist _).length_le

/-- A successful `_join_docs` is the stripped separator-join of the group. -/
theorem joinDocs_eq_some (cur : List PyStr) (sep doc : PyStr)
    (hj : joinDocs cur sep = some doc) : doc = pyStrip (pyJoin sep cur) := by
  unfold joinDocs at hj
  dsimp only at hj
  split at hj
  · exact absurd hj (by simp)
  · exact (Option.some_inj.mp hj).symm

/-- Joining `g` inserts at most `sep.length * g.length` separator
characters on top of the pieces' own characters. -/
theorem pyJoin_length_le (sep : PyStr) (g : List PyStr) :
    (pyJoin sep g).length ≤ (g.map List.length).sum + sep.length * g.length := by
  induction g with
  | nil => simp [pyJoin]
  | cons x t ih =>
    cases t with
    | nil => simp [pyJoin]
    | cons y t2 =>
      simp only [pyJoin, List.length_append, List.map_cons, List.sum_cons,
        List.length_cons, Nat.mul_succ] at *
      omega

/-- Specification of the pop loop: it preserves the running-total/sum
relation, stops only when another piece of length `lenD` would fit in
`chunk_size` (or the group is empty), and never grows the group. -/
theorem popLoop_spec (chunk_overlap chunk_size lenD : Nat) :
    ∀ (cur : List PyStr) (total : Nat),
    total = (cur.map List.length).sum →
    (popLoop chunk_overlap chunk_size lenD cur total).2 =
      (((popLoop chunk_overlap chunk_size lenD cur total).1).map List.length).sum ∧
    ((popLoop chunk_overlap chunk_size lenD cur total).2 + lenD ≤ chunk_size ∨
      (popLoop chunk_overlap chunk_size lenD cur total).2 = 0) ∧
    (popLoop chunk_overlap chunk_size lenD cur total).1.length ≤ cur.length := by
  intro cur
  induction cur with
  | nil =>
    intro total h
    simp only [List.map_nil, List.sum_nil] at h
    subst h
    exact ⟨rfl, Or.inr rfl, le_refl _⟩
  | cons x xs ih =>
    intro total h
    unfold popLoop
    split
    · have hx := ih (total - x.length) (by simp only [List.map_cons, List.sum_cons] at h; omega)
      exact ⟨hx.1, hx.2.1, le_trans hx.2.2 (Nat.le_succ _)⟩
    · rename_i hcond
      exact ⟨h, by omega, le_refl _⟩

/-- Emitted-chunk length bound for the merge loop, by induction over the
remaining splits, carrying the running-total invariants. -/
theorem mergeGo_chunk_bound (chunk_size chunk_overlap : Nat) (separator : PyStr) :
    ∀ (splits cur : List PyStr) (total : Nat) (c : PyStr),
    (∀ s ∈ splits, s.length < chunk_size) →
    total = (cur.map List.length).sum →
    total ≤ chunk_size →
    c ∈ mergeGo chunk_size chunk_overlap separator splits cur total →
    c.length ≤ chunk_size + separator.length * (cur.length + splits.length) := by
  intro splits
  induction splits with
  | nil =>
    intro cur total c _ hsum hle hc
    unfold mergeGo at hc
    cases hj : joinDocs cur separator with
    | none => rw [hj] at hc; simp at hc
    | some doc =>
      rw [hj] at hc
      simp only [List.mem_singleton] at hc
      subst hc
      rw [joinDocs_eq_some cur separator c hj]
      calc (pyStrip (pyJoin separator cur)).length
          ≤ (pyJoin separator cur).length := pyStrip_length_le _
        _ ≤ (cur.map List.length).sum + separator.length * cur.length :=
            pyJoin_length_le separator cur
        _ ≤ chunk_size + separator.length * (cur.length + 0) := by
            rw [Nat.add_zero]
            exact Nat.add_le_add (hsum ▸ hle) le_rfl
  | cons d rest ih =>
    intro cur total c hs hsum hle hc
    have hd : d.length < chunk_size := hs d (List.mem_cons_self d rest)
    have hs' : ∀ s ∈ rest, s.length < chunk_size :=
      fun s h => hs s (List.mem_cons_of_mem d h)
    unfold mergeGo at hc
    by_cases h1 : total + d.length ≥ chunk_size
    · rw [if_pos h1] at hc
      by_cases h2 : cur ≠ []
      · rw [if_pos h2] at hc
        simp only at hc
        rcases List.mem_append.mp hc with hflush | hrec
        · -- the flushed group: its total is still ≤ chunk_size
          cases hj : joinDocs cur separator with
          | none => rw [hj] at hflush; simp at hflush
          | some doc =>
            rw [hj] at hflush
            simp only [List.mem_singleton] at hflush
            subst hflush
            rw [joinDocs_eq_some cur separator c hj]
            have hmul : separator.length * cur.length ≤
                separator.length * (cur.length + (d :: rest).length) :=
              Nat.mul_le_mul_left _ (by omega)
            calc (pyStrip (pyJoin separator cur)).length
                ≤ (pyJoin separator cur).length := pyStrip_length_le _
              _ ≤ (cur.map List.length).sum + separator.length * cur.length :=
                  pyJoin_length_le separator cur
              _ ≤ chunk_size + separator.length * cur.length :=
                  Nat.add_le_add (hsum ▸ hle) le_rfl
              _ ≤ chunk_size + separator.length * (cur.length + (d :: rest).length) :=
                  Nat.add_le_add_left hmul _
        · -- the recursive tail, after the pop loop reseeded the group
          have hpop := popLoop_spec chunk_overlap chunk_size d.length cur total hsum
          set popped := popLoop chunk_overlap chunk_size d.length cur total with hp
          have hsum' : popped.2 + d.length = (((popped.1 ++ [d])).map List.length).sum := by
            rw [List.map_append, List.sum_append]
            simp [hpop.1]
          have hle' : popped.2 + d.length ≤ chunk_size := by
            rcases hpop.2.1 with h | h
            · exact h
            · omega
          have hbound := ih (popped.1 ++ [d]) (popped.2 + d.length) c hs'
            hsum' hle' hrec
          have heq : (popped.1 ++ [d]).length = popped.1.length + 1 := by
            simp
          rw [heq] at hbound
          have hlen := hpop.2.2
          have hmul : separator.length * (popped.1.length + 1 + rest.length) ≤
              separator.length * (cur.length + (d :: rest).length) := by
            apply Nat.mul_le_mul_left
            simp only [List.length_cons]
            omega
          exact le_trans hbound (Nat.add_le_add_left hmul _)
      · exfalso
        have hcur : cur = [] := by
          by_contra hk
          exact h2 hk
        subst hcur
        simp only [List.map_nil, List.sum_nil] at hsum
        omega
    · rw [if_neg h1] at hc
      have hbound := ih (cur ++ [d]) (total + d.length) c hs'
        (by rw [List.map_append, List.sum_append]; simp [hsum]) (by omega) hc
      have heq : (cur ++ [d]).length = cur.length + 1 := by simp
      rw [heq] at hbound
      have hmul : separator.length * (cur.length + 1 + rest.length) ≤
          separator.length * (cur.length + (d :: rest).length) := by
        apply Nat.mul_le_mul_left
        simp only [List.length_cons]
        omega
      exact le_trans hbound (Nat.add_le_add_left hmul _)

theorem C4_counterexample :
    splitText 10 0 defaultSeparators 5 ("aaa bbb ccc ddd".data) =
      some [("aaa bbb ccc".data), ("ddd".data)] ∧
    ("aaa bbb ccc".data).length = 11 ∧
    (pySplit [' '] ("aaa bbb ccc ddd".data)).all (fun s => decide (s.length < 10)) = true := by
  decide

/-- C4 (amended): for pieces that are each shorter than `chunkSize` (as all
pieces handed to `merge_splits` by `split_text` are), every produced chunk
has length at most `chunkSize` plus the inserted separator characters —
at most `len(separator)` per merged piece — because the merge loop's
running total counts only the pieces' own characters.  With the empty
(character-level) separator the original `≤ chunkSize` bound does hold;
with a non-empty separator it can be exceeded, as the counterexample
shows. -/
theorem C4_chunk_length_bound (chunk_size chunk_overlap : Nat) (separator : PyStr)
    (splits : List PyStr) (c : PyStr)
    (hs : ∀ s ∈ splits, s.length < chunk_size)
    (hc : c ∈ mergeSplits chunk_size chunk_overlap splits separator) :
    c.length ≤ chunk_size + separator.length * splits.length ∧
    (separator = [] → c.length ≤ chunk_size) := by
  have hb := mergeGo_chunk_bound chunk_size chunk_overlap separator splits [] 0 c hs
    rfl (Nat.zero_le _) hc
  simp only [List.length_nil, Nat.zero_add] at hb
  refine ⟨hb, fun hsep => ?_⟩
  subst hsep
  simpa using hb

theorem C4_chunk_length_bound_witness :
    ("the quick".data).length ≤ 10 + ([' '] : PyStr).length * 4 ∧
    (([' '] : PyStr) = [] → ("the quick".data).length ≤ 10) :=
  C4_chunk_length_bound 10 2 [' ']
    ["the".data, "quick".data, "brown".data, "fox".data] ("the quick".data)
    (by decide) (by decide)

/-- Any string no longer than `MIN_CHUNK_SIZE` is returned unchanged by
`trim_prompt` in one step: either it is empty, or it fits the budget, or
the shrunken character estimate falls below the floor and
`prompt[:MIN_CHUNK_SIZE]` is the string itself. -/
theorem trimPrompt_short_fixed (tok : PyStr → Nat) (f₂ context_size : Nat) (v : PyStr)
    (hv : v.length ≤ MIN_CHUNK_SIZE) :
    trimPrompt tok (f₂ + 1) v context_size = some v := by
  unfold trimPrompt
  by_cases hp : v = []
  · rw [if_pos hp, hp]
  · rw [if_neg hp]
    by_cases htok : tok v ≤ context_size
    · rw [if_pos htok]
    · rw [if_neg htok]
      dsimp only
      have hcs : v.length - (tok v - context_size) * 3 < MIN_CHUNK_SIZE := by
        have h1 : 1 ≤ tok v - context_size := by omega
        have h2 : MIN_CHUNK_SIZE = 140 := rfl
        omega
      rw [if_pos hcs, List.take_of_length_le hv]

/-- Every value `trim_prompt` returns is a fixed point of `trim_prompt`
at the same budget (whatever positive fuel is used to re-run it). -/
theorem trimPrompt_result_fixed (tok : PyStr → Nat) :
    ∀ (fuel : Nat) (p : PyStr) (context_size : Nat) (r : PyStr),
    trimPrompt tok fuel p context_size = some r →
    ∀ f₂ : Nat, trimPrompt tok (f₂ + 1) r context_size = some r := by
  intro fuel
  induction fuel with
  | zero =>
    intro p context_size r h
    exact absurd h (by simp [trimPrompt])
  | succ fuel ih =>
    intro p context_size r h f₂
    unfold trimPrompt at h
    by_cases hp : p = []
    · rw [if_pos hp] at h
      have hr : r = [] := by injection h with h2; exact h2.symm
      subst hr
      unfold trimPrompt
      rw [if_pos rfl]
    · rw [if_neg hp] at h
      by_cases htok : tok p ≤ context_size
      · rw [if_pos htok] at h
        have hr : r = p := by injection h with h2; exact h2.symm
        subst hr
        unfold trimPrompt
        rw [if_neg hp, if_pos htok]
      · rw [if_neg htok] at h
        dsimp only at h
        by_cases hcs : p.length - (tok p - context_size) * 3 < MIN_CHUNK_SIZE
        · rw [if_pos hcs] at h
          have hr : r = p.take MIN_CHUNK_SIZE := by injection h with h2; exact h2.symm
          subst hr
          exact trimPrompt_short_fixed tok f₂ context_size _ (by
            rw [List.length_take]
            exact min_le_left _ _)
        · rw [if_neg hcs] at h
          cases hsp : splitText (p.length - (tok p - context_size) * 3) 0
              defaultSeparators fuel p with
          | none => rw [hsp] at h; exact absurd h (by simp)
          | some chunks =>
            rw [hsp] at h
            dsimp only at h
            by_cases hlen : (chunks.headD []).length = p.length
            · rw [if_pos hlen] at h
              exact ih _ context_size r h f₂
            · rw [if_neg hlen] at h
              exact ih _ context_size r h f₂

/-- C5: the trimmer is idempotent — whatever string a `trim_prompt` call
returns, running `trim_prompt` on it again with the same token budget
returns it unchanged, on the normal path and on the encoder-failure
fallback path alike; and trim of the empty string is the empty string. -/
theorem C5_trim_idempotent (enc : Option (PyStr → Nat)) (fuel : Nat) (prompt : PyStr)
    (context_size : Nat) (r : PyStr) (f₂ : Nat)
    (h : trimPromptFull enc fuel prompt context_size = some r) :
    trimPromptFull enc (f₂ + 1) r context_size = some r ∧
    trimPromptFull enc (f₂ + 1) [] context_size = some [] := by
  constructor
  · unfold trimPromptFull at h ⊢
    by_cases hr : r = []
    · rw [if_pos hr, hr]
    · rw [if_neg hr]
      cases enc with
      | none =>
        by_cases hp : prompt = []
        · rw [if_pos hp] at h
          exact absurd (by injection h with h2; exact h2.symm) hr
        · rw [if_neg hp] at h
          have hr2 : r = prompt.take (context_size * 3) := by
            injection h with h2; exact h2.symm
          subst hr2
          rw [List.take_of_length_le]
          rw [List.length_take]
          exact min_le_left _ _
      | some tok =>
        by_cases hp : prompt = []
        · rw [if_pos hp] at h
          exact absurd (by injection h with h2; exact h2.symm) hr
        · rw [if_neg hp] at h
          exact trimPrompt_result_fixed tok fuel prompt context_size r h f₂
  · simp [trimPromptFull]

theorem C5_trim_idempotent_witness :
    trimPromptFull (some (fun s => s.length)) 1 ['a', 'b'] 5 = some ['a', 'b'] ∧
    trimPromptFull (some (fun s => s.length)) 1 [] 5 = some [] :=
  C5_trim_idempotent (some (fun s => s.length)) 1 ['a', 'b'] 5 ['a', 'b'] 0 (by decide)

theorem foldr_max_const {α : Type} (f : α → Nat) (v : Nat) (l : List α)
    (hl : l ≠ []) (hf : ∀ a ∈ l, f a = v) : (l.map f).foldr max 0 = v := by
  induction l with
  | nil => exact absurd rfl hl
  | cons a t ih =>
    cases t with
    | nil => simp [hf a (List.mem_singleton.mpr rfl)]
    | cons b t2 =>
      have ht : ((b :: t2).map f).foldr max 0 = v :=
        ih (by simp) (fun x hx => hf x (List.mem_cons_of_mem a hx))
      simp only [List.map_cons, List.foldr_cons] at ht ⊢
      rw [ht, hf a (List.mem_cons_self a _)]
      exact Nat.max_self v

theorem childBreadth_pos (b : Nat) : 1 ≤ childBreadth b := Nat.le_max_left 1 _

/-- With a never-empty planner and never-failing search service, the
call-tree depth of `deep_research` is exactly `depth` for `depth ≥ 1` and
1 for `depth = 0` (the root still executes one level of branches). -/
theorem drLevelsGo_eq (env : Env)
    (hplan : ∀ q b ls, 1 ≤ b → generateSerpQueries (env.plannerResp q b ls) b ≠ [])
    (hsearch : ∀ q, ∃ items, env.searchResp q = .ok items) :
    ∀ (d : Nat) (q : PyStr) (b : Nat) (ls us : List PyStr), 1 ≤ b →
    drLevelsGo env d q b ls us = if d = 0 then 1 else d := by
  intro d
  induction d with
  | zero =>
    intro q b ls us hb
    unfold drLevelsGo drLevelsStep
    rw [if_neg (hplan q b ls hb)]
    have hall : ∀ sq ∈ generateSerpQueries (env.plannerResp q b ls) b,
        pqLevels env (fun _ _ _ _ => 0) b 0 ls us sq = 0 := by
      intro sq _
      unfold pqLevels
      obtain ⟨items, hi⟩ := hsearch sq.query
      rw [hi]
      dsimp only
      rw [if_neg (by omega)]
    rw [foldr_max_const _ 0 _ (hplan q b ls hb) hall]
    simp
  | succ d ih =>
    intro q b ls us hb
    unfold drLevelsGo drLevelsStep
    rw [if_neg (hplan q b ls hb)]
    have hall : ∀ sq ∈ generateSerpQueries (env.plannerResp q b ls) b,
        pqLevels env (drLevelsGo env d) b (d + 1) ls us sq = d := by
      intro sq _
      unfold pqLevels
      obtain ⟨items, hi⟩ := hsearch sq.query
      rw [hi]
      dsimp only
      by_cases hd : d = 0
      · subst hd
        rw [if_neg (by omega)]
      · rw [if_pos (by omega)]
        rw [ih _ _ _ _ (childBreadth_pos b), if_neg hd]
    rw [foldr_max_const _ d _ (hplan q b ls hb) hall,
      if_neg (Nat.succ_ne_zero d)]
    omega

/-- Iterating `max(1, b // 2)` is the closed form `max(1, b / 2^k)`. -/
theorem childBreadth_iterate (b k : Nat) (hb : 1 ≤ b) :
    childBreadth^[k] b = max 1 (b / 2 ^ k) := by
  induction k with
  | zero =>
    simp [Nat.max_eq_right hb]
  | succ k ih =>
    rw [Function.iterate_succ_apply', ih, Nat.pow_succ, ← Nat.div_div_eq_div_mul]
    unfold childBreadth
    by_cases h : b / 2 ^ k = 0
    · rw [h]
      decide
    · rw [Nat.max_eq_right (Nat.pos_of_ne_zero h)]

/-- C1 (amended): with every planning call returning a non-empty plan and
no search failures, the orchestrator's recursion terminates (the model is
total by recursion on `depth`); for every initial `depth ≥ 1` the call
tree is exactly `depth` levels deep, while for `depth = 0` it is still 1
level (the root plans, searches and extracts, then terminates — see the
counterexample); and the breadth used at level `k` is
`max(1, floor(breadth / 2^k))` for `breadth ≥ 1`. -/
theorem C1_depth_and_breadth (env : Env) (query : PyStr) (breadth depth : Nat)
    (learnings visited_urls : List PyStr) (k : Nat)
    (hplan : ∀ q b ls, 1 ≤ b → generateSerpQueries (env.plannerResp q b ls) b ≠ [])
    (hsearch : ∀ q, ∃ items, env.searchResp q = .ok items)
    (hb : 1 ≤ breadth) (hd : 1 ≤ depth) :
    drLevels env query breadth depth learnings visited_urls = depth ∧
    childBreadth^[k] breadth = max 1 (breadth / 2 ^ k) := by
  constructor
  · rw [drLevels, drLevelsGo_eq env hplan hsearch depth query breadth _ _ hb,
      if_neg (by omega)]
  · exact childBreadth_iterate breadth k hb

theorem C1_counterexample :
    drLevels envC1 ['t'] 2 0 [] [] = 1 ∧ (1 : Nat) ≠ 0 := by decide

theorem C1_depth_and_breadth_witness :
    drLevels envC1 ['t'] 2 2 [] [] = 2 ∧
    childBreadth^[3] 2 = max 1 (2 / 2 ^ 3) :=
  C1_depth_and_breadth envC1 ['t'] 2 2 [] [] 3
    (fun q b ls hb => by
      cases b with
      | zero => omega
      | succ n => simp [generateSerpQueries, envC1])
    (fun q => ⟨[], rfl⟩) (by decide) (by decide)
